import Mathlib

/-!
Verification of the core of the Uzumaki spiral renderer and its generative
audio engine.  The definitions below are a shallow embedding of the
TypeScript sources:

* `SpiralGeometry.ts` — fixed-capacity segment buffer with halve-and-evict
  overflow (`appendSegment`, `_dropOldest`, `reset`);
* `SpiralRenderer` — `resize` and `clear`;
* `PostProcessor.ts` — motion-trail ping-pong in `render`, `clearTrail`;
* the generative engine — `snapToSimpleRatio`, the lookahead scheduler
  (`_runScheduler` plus the three `_scheduleX` clock advances),
  `_claimVoice`, `_nextMelodyNote`;
* the reactive engine — `isBeat`;
* `AudioManager._applyMapping`.

JS numbers are modelled as `ℚ` (the constants appearing here are exactly
representable as doubles, and every comparison proved or refuted below is
far from an equality boundary), MIDI notes as `ℤ`, and the pseudo-random
draws of the engine are passed in as explicit parameters.
-/

/-! ## Segment buffer (`SpiralGeometry.ts`) -/

/-- Capacity of the segment buffer (`MAX_SEGMENTS` in `SpiralGeometry.ts`). -/
def MAX_SEGMENTS : ℕ := 50000

/-- One stored line segment: the data written by `appendSegment` at one slot
(positions of both endpoints and the shared endpoint colour).  The alpha
argument of `appendSegment` is not stored per segment — it becomes the
shared material opacity — so it is not a field here. -/
structure Segment where
  x1 : ℚ
  y1 : ℚ
  x2 : ℚ
  y2 : ℚ
  r : ℚ
  g : ℚ
  b : ℚ
  deriving DecidableEq, Repr, Inhabited

/-- `SpiralGeometry._dropOldest`: with `keep = ⌊MAX_SEGMENTS / 2⌋` and
`offset = MAX_SEGMENTS - keep`, the elements from index `offset` on are
shifted to index 0 and the count becomes `keep` (the `take`). -/
def dropOldest (buf : List Segment) : List Segment :=
  (buf.drop (MAX_SEGMENTS - MAX_SEGMENTS / 2)).take (MAX_SEGMENTS / 2)

/-- `SpiralGeometry.appendSegment`: if the buffer is full (`count ≥
MAX_SEGMENTS`) drop the oldest half first, then write the new segment after
the existing ones. -/
def appendSegment (buf : List Segment) (s : Segment) : List Segment :=
  (if MAX_SEGMENTS ≤ buf.length then dropOldest buf else buf) ++ [s]

/-- A whole sequence of `appendSegment` calls starting from a fresh
(empty) `SpiralGeometry`. -/
def appendAll (ss : List Segment) : List Segment :=
  ss.foldl appendSegment []

/-- A concrete segment used as a witness input. -/
def seg0 : Segment := ⟨0, 0, 1, 1, 1, 1, 1⟩

/-- A completely full segment buffer (witness input). -/
def fullBuffer : List Segment := List.replicate MAX_SEGMENTS seg0

/-! ## `SpiralRenderer.resize` and its call-site guard -/

/-- The size-dependent state touched by `SpiralRenderer.resize`: logical
canvas size, orthographic camera frustum, accumulation-target physical
size, line-material resolution and post-processor size. -/
structure SpiralRendererDims where
  width : ℚ
  height : ℚ
  camLeft : ℚ
  camRight : ℚ
  camTop : ℚ
  camBottom : ℚ
  accumW : ℤ
  accumH : ℤ
  geomResW : ℚ
  geomResH : ℚ
  ppW : ℚ
  ppH : ℚ
  deriving DecidableEq, Repr

/-- `SpiralRenderer.resize(width, height)`: early-returns only when the new
dimensions equal the current ones; otherwise updates the size, the camera
half-extents, the accumulation target (at `Math.round(size × dpr)` physical
pixels), the geometry resolution and the post-processor size. -/
def spiralResize (s : SpiralRendererDims) (dpr w h : ℚ) : SpiralRendererDims :=
  if w = s.width ∧ h = s.height then s
  else
    { width := w
      height := h
      camLeft := -(w / 2)
      camRight := w / 2
      camTop := h / 2
      camBottom := -(h / 2)
      accumW := round (w * dpr)
      accumH := round (h * dpr)
      geomResW := w
      geomResH := h
      ppW := w
      ppH := h }

/-- The `handleResize` closure of the animation hook: it calls
`renderer.resize(w, h)` only when `w > 0 && h > 0`. -/
def handleResize (s : SpiralRendererDims) (dpr w h : ℚ) : SpiralRendererDims :=
  if 0 < w ∧ 0 < h then spiralResize s dpr w h else s

/-- A concrete renderer-dimension state (counterexample / witness input). -/
def dims0 : SpiralRendererDims :=
  { width := 100, height := 100
    camLeft := -50, camRight := 50, camTop := 50, camBottom := -50
    accumW := 200, accumH := 200
    geomResW := 100, geomResH := 100
    ppW := 100, ppH := 100 }

/-! ## Lookahead scheduler (`SpiralMusicEngine._runScheduler`) -/

/-- The per-layer clocks `nextTime.{drone, melody, sparkle}` (audio-clock
seconds). -/
structure LayerTimes where
  drone : ℚ
  melody : ℚ
  sparkle : ℚ
  deriving DecidableEq, Repr

/-- Everything one `setInterval` tick of the scheduler reads from outside:
the audio-clock reading taken at the top of the tick (`nowGuard`), the
possibly later readings taken inside each `_scheduleX` call, the context
suspension flag, the three layer-enable flags, the density control, and
the outcome of the sparkle layer's exponential random draw. -/
structure SchedTick where
  nowGuard : ℚ
  nowDrone : ℚ
  nowMelody : ℚ
  nowSparkle : ℚ
  suspended : Bool
  droneEnabled : Bool
  melodyEnabled : Bool
  sparkleEnabled : Bool
  musicDensity : ℚ
  sparkleDraw : ℚ
  deriving Repr

/-- `LOOKAHEAD = 0.025` seconds. -/
def LOOKAHEAD : ℚ := 25 / 1000

/-- Drone re-trigger interval: `8 + (1 - density) * 12` seconds. -/
def droneInterval (density : ℚ) : ℚ := 8 + (1 - density) * 12

/-- Melody note interval: `1.5 + (1 - density) * 4.5` seconds. -/
def melodyInterval (density : ℚ) : ℚ := 3 / 2 + (1 - density) * (9 / 2)

/-- `_scheduleDrone`'s clock advance: `now = max(currentTime, nextTime)`,
then `nextTime := now + interval`. -/
def scheduleDrone (t : LayerTimes) (inp : SchedTick) : LayerTimes :=
  { t with drone := max inp.nowDrone t.drone + droneInterval inp.musicDensity }

/-- `_scheduleMelody`'s clock advance. -/
def scheduleMelody (t : LayerTimes) (inp : SchedTick) : LayerTimes :=
  { t with melody := max inp.nowMelody t.melody + melodyInterval inp.musicDensity }

/-- `_scheduleSparkle`'s clock advance: the drawn Poisson interval is
clamped below by `0.1` seconds. -/
def scheduleSparkle (t : LayerTimes) (inp : SchedTick) : LayerTimes :=
  { t with sparkle := max inp.nowSparkle t.sparkle + max (1 / 10) inp.sparkleDraw }

/-- The drone line of the tick body: fire the layer (and advance its
clock) exactly when it is enabled and its clock is inside the lookahead
window.  Returns the new clocks and the fired flag. -/
def droneTick (t : LayerTimes) (inp : SchedTick) : LayerTimes × Bool :=
  if inp.droneEnabled && decide (t.drone < inp.nowGuard + LOOKAHEAD)
  then (scheduleDrone t inp, true) else (t, false)

/-- The melody line of the tick body. -/
def melodyTick (t : LayerTimes) (inp : SchedTick) : LayerTimes × Bool :=
  if inp.melodyEnabled && decide (t.melody < inp.nowGuard + LOOKAHEAD)
  then (scheduleMelody t inp, true) else (t, false)

/-- The sparkle line of the tick body. -/
def sparkleTick (t : LayerTimes) (inp : SchedTick) : LayerTimes × Bool :=
  if inp.sparkleEnabled && decide (t.sparkle < inp.nowGuard + LOOKAHEAD)
  then (scheduleSparkle t inp, true) else (t, false)

/-- One tick of `_runScheduler`: bail out when the context is suspended,
otherwise run the three layer lines in source order (each reading the
clocks left by the previous one).  Returns the new clocks together with
the three fired-this-tick flags. -/
def schedulerTick (t : LayerTimes) (inp : SchedTick) :
    LayerTimes × (Bool × Bool × Bool) :=
  if inp.suspended then (t, (false, false, false))
  else
    ((sparkleTick (melodyTick (droneTick t inp).1 inp).1 inp).1,
     ((droneTick t inp).2,
      (melodyTick (droneTick t inp).1 inp).2,
      (sparkleTick (melodyTick (droneTick t inp).1 inp).1 inp).2))

/-- A concrete scheduler tick input (witness). -/
def tick0 : SchedTick :=
  { nowGuard := 100, nowDrone := 100, nowMelody := 100, nowSparkle := 100
    suspended := false
    droneEnabled := true, melodyEnabled := true, sparkleEnabled := true
    musicDensity := 1 / 2, sparkleDraw := 2 }

/-! ## Voice pool (`SpiralMusicEngine._claimVoice`) -/

/-- One pool voice: the busy flag plus the observable state of its gain
`AudioParam` (its value at claim time and whether ramps are still
scheduled on it). -/
structure PoolVoice where
  busy : Bool
  gainValue : ℚ
  pendingRamps : Bool
  deriving DecidableEq, Repr, Inhabited

/-- `_claimVoice(now)`: return the first free voice, marked busy; when all
are busy, pick a random voice (`r` is the random draw, reduced mod the
pool size exactly as `Math.floor(Math.random() * len)` produces an index
below `len`), cancel its scheduled gain ramps, set its gain to 0 at `now`,
mark it busy and return it. -/
def claimVoice (pool : List PoolVoice) (r : ℕ) : ℕ × List PoolVoice :=
  match pool.findIdx? (fun v => !v.busy) with
  | some i =>
      let v := pool.getD i default
      (i, pool.set i { v with busy := true })
  | none =>
      let j := r % pool.length
      (j, pool.set j { busy := true, gainValue := 0, pendingRamps := false })

/-- The pool built by `init`: 6 voices, all free with gain 0. -/
def initVoicePool : List PoolVoice :=
  List.replicate 6 { busy := false, gainValue := 0, pendingRamps := false }

/-- A pool in which every voice is busy with a live envelope (witness). -/
def busyPool : List PoolVoice :=
  List.replicate 6 { busy := true, gainValue := 1 / 10, pendingRamps := true }

/-! ## Harmonic-ratio snapping (`snapToSimpleRatio`) -/

/-- `SIMPLE_RATIOS = [1, 1.25, 1.333, 1.5, 2, 2.5, 3, 4, 8]`. -/
def SIMPLE_RATIOS : List ℚ :=
  [1, 5 / 4, 1333 / 1000, 3 / 2, 2, 5 / 2, 3, 4, 8]

/-- Relative distance `|c - r| / r` used by the snapping loop. -/
def relDist (c r : ℚ) : ℚ := |c - r| / r

/-- One iteration of the snapping loop.  The source initialises
`bestDist = Infinity`, modelled by the `none` accumulator which the first
iteration always replaces. -/
def snapFold (c : ℚ) : Option (ℚ × ℚ) → ℚ → Option (ℚ × ℚ)
  | none, r => some (r, relDist c r)
  | some (b, bd), r => if relDist c r < bd then some (r, relDist c r) else some (b, bd)

/-- The return line of `snapToSimpleRatio`: snap to the best entry when
its distance is below the `0.15` tolerance, else keep the clamped value. -/
def snapFinish (clamped : ℚ) : Option (ℚ × ℚ) → ℚ
  | some (b, bd) => if bd < 3 / 20 then b else clamped
  | none => clamped

/-- `snapToSimpleRatio`: clamp to `[1, 8]`, find the table entry of
minimal relative distance, snap to it when that distance is below `0.15`,
otherwise return the clamped input. -/
def snapToSimpleRatio (q : ℚ) : ℚ :=
  snapFinish (max 1 (min 8 q))
    (SIMPLE_RATIOS.foldl (snapFold (max 1 (min 8 q))) none)

/-! ## Reactive mapping (`AudioManager._applyMapping`) -/

/-- The `combineMode` of a reactive mapping. -/
inductive MapMode where
  | add
  | multiply
  | set
  deriving DecidableEq, Repr

/-- The fields of an `AudioMapping` that `_applyMapping` reads
(`min?` and `max?` model the optional `min`/`max` bounds). -/
structure AudioMapping where
  mode : MapMode
  intensity : ℚ
  min? : Option ℚ
  max? : Option ℚ
  deriving DecidableEq, Repr

/-- `AudioManager._applyMapping` on a numeric base config value. -/
def applyMapping (m : AudioMapping) (energy base : ℚ) : ℚ :=
  match m.mode with
  | .add => base + energy * m.intensity * |base| * (1 / 2)
  | .multiply => base * (1 + energy * m.intensity)
  | .set =>
      let lo := m.min?.getD 0
      let hi := m.max?.getD (|base| * 2)
      lo + energy * (hi - lo)

/-! ## Render targets, `clear`, and the motion-trail ping-pong -/

/-- Abstract contents of a GPU render target: `cleared` is a buffer filled
with the uniform clear colour (black — the background), `blend` is the
output of the trail mix shader, `image` stands for any other rendered
content. -/
inductive TargetContent where
  | cleared : TargetContent
  | blend : TargetContent → TargetContent → ℚ → TargetContent
  | image : ℕ → TargetContent
  deriving DecidableEq, Repr

/-- The trail-related state of `PostProcessor`: the two ping-pong targets,
the write-index bit and the composer read buffer. -/
structure PostProcessorState where
  trailA : TargetContent
  trailB : TargetContent
  trailWriteIdx : ℕ
  readBuffer : TargetContent
  deriving DecidableEq, Repr

/-- `PostProcessor.clearTrail`: clear both ping-pong targets and reset the
write index to 0. -/
def clearTrail (p : PostProcessorState) : PostProcessorState :=
  { p with trailA := TargetContent.cleared
           trailB := TargetContent.cleared
           trailWriteIdx := 0 }

/-- `PostProcessor.render`: when `motionTrail > 0`, blend the accumulation
texture with the previous trail target into the current one, flip the
write index, and feed the blend result to the effect passes (by seeding
the composer read buffer with it); otherwise leave the trail state alone
and feed the accumulation texture itself.  Returns the new state and the
texture fed to the passes. -/
def ppRender (p : PostProcessorState) (accumTex : TargetContent)
    (motionTrail : ℚ) : PostProcessorState × TargetContent :=
  if 0 < motionTrail then
    let prev := if p.trailWriteIdx = 0 then p.trailB else p.trailA
    let curr := TargetContent.blend accumTex prev motionTrail
    let p1 := if p.trailWriteIdx = 0 then { p with trailA := curr }
              else { p with trailB := curr }
    let p2 := { p1 with trailWriteIdx := 1 - p.trailWriteIdx, readBuffer := curr }
    (p2, curr)
  else
    ({ p with readBuffer := accumTex }, accumTex)

/-- The state touched by `SpiralRenderer.clear`: the logical segment
buffer, the accumulation target, the visible canvas and the post-processor
trail state. -/
structure SpiralRendererState where
  buffer : List Segment
  accum : TargetContent
  screen : TargetContent
  post : PostProcessorState
  deriving DecidableEq, Repr

/-- `SpiralRenderer.clear`: reset the geometry, clear the accumulation
target to the background colour, blit it to screen, and clear the trail
buffers. -/
def clearRenderer (s : SpiralRendererState) : SpiralRendererState :=
  { s with buffer := []
           accum := TargetContent.cleared
           screen := TargetContent.cleared
           post := clearTrail s.post }

/-- A concrete post-processor state with distinct live contents
(witness input). -/
def post0 : PostProcessorState :=
  { trailA := TargetContent.image 1
    trailB := TargetContent.image 2
    trailWriteIdx := 1
    readBuffer := TargetContent.image 3 }

/-! ## Beat detection (`ReactiveEngine.isBeat`) -/

/-- `BEAT_THRESHOLD = 1.5`. -/
def BEAT_THRESHOLD : ℚ := 3 / 2

/-- `BEAT_COOLDOWN_MS = 200`. -/
def BEAT_COOLDOWN_MS : ℚ := 200

/-- The state `isBeat` reads and writes: the rolling energy history
(oldest first, latest last) and the wall-clock time of the last declared
beat. -/
structure BeatState where
  energyHistory : List ℚ
  lastBeatTime : ℚ
  deriving DecidableEq, Repr

/-- The latest history sample, `history[history.length - 1]`. -/
def latestSample (hist : List ℚ) : ℚ := hist.getLast?.getD 0

/-- The mean of all history samples other than the latest,
`history.slice(0, -1)` summed and divided by `length - 1`. -/
def meanOfOthers (hist : List ℚ) : ℚ :=
  hist.dropLast.sum / ((hist.length : ℚ) - 1)

/-- `ReactiveEngine.isBeat()` at wall-clock time `now`: requires ≥ 10
samples, the 200 ms cooldown, the mean of the other samples above the
noise floor `0.02`, and the latest sample above `1.5 ×` that mean; on a
beat the cooldown clock is reset to `now`. -/
def isBeat (s : BeatState) (now : ℚ) : Bool × BeatState :=
  if s.energyHistory.length < 10 then (false, s)
  else if now - s.lastBeatTime < BEAT_COOLDOWN_MS then (false, s)
  else if 1 / 50 < meanOfOthers s.energyHistory ∧
      meanOfOthers s.energyHistory * BEAT_THRESHOLD
        < latestSample s.energyHistory then
    (true, { s with lastBeatTime := now })
  else (false, s)

/-! ## Melody note selection (`SpiralMusicEngine._nextMelodyNote`) -/

/-- The candidate notes: every scale degree over octaves `-1 … 2` from the
root, clipped to the MIDI range `[48, 84]`, in loop order. -/
def buildCandidates (root : ℤ) (scale : List ℤ) : List ℤ :=
  ([-1, 0, 1, 2] : List ℤ).flatMap fun oct =>
    (scale.map fun interval => root + oct * 12 + interval).filter
      fun m => decide (48 ≤ m ∧ m ≤ 84)

/-- The stepwise bucket: candidates within 5 semitones of the previous
note (and different from it). -/
def stepBucket (root : ℤ) (scale : List ℤ) (last : ℤ) : List ℤ :=
  (buildCandidates root scale).filter fun n => decide (|n - last| ≤ 5 ∧ n ≠ last)

/-- The leap bucket: candidates more than 5 semitones from the previous
note (and different from it). -/
def leapBucket (root : ℤ) (scale : List ℤ) (last : ℤ) : List ℤ :=
  (buildCandidates root scale).filter fun n => decide (5 < |n - last| ∧ n ≠ last)

/-- `_nextMelodyNote`: with `rPool` the bucket-choice random draw and
`rIdx` the index draw (reduced mod the pool size exactly as
`Math.floor(Math.random() * len)` produces an index below `len`): 60 when
there are no candidates at all, otherwise a note from the stepwise bucket
with 70% probability, falling back to the leap bucket and then to the
full candidate set when the preferred bucket is empty. -/
def nextMelodyNote (root : ℤ) (scale : List ℤ) (last : ℤ)
    (rPool : ℚ) (rIdx : ℕ) : ℤ :=
  let candidates := buildCandidates root scale
  if candidates = [] then 60
  else
    let stepwise := stepBucket root scale last
    let leaps := leapBucket root scale last
    let pool :=
      if rPool < 7 / 10 ∧ stepwise ≠ [] then stepwise
      else if leaps ≠ [] then leaps
      else candidates
    pool.getD (rIdx % pool.length) 60

/-! ## Helper lemmas -/

/-- An index returned by `List.findIdx?` is in bounds. -/
theorem findIdx?_lt_length {α : Type} (p : α → Bool) :
    ∀ (l : List α) (i : ℕ), l.findIdx? p = some i → i < l.length := by
  intro l
  induction l with
  | nil => intro i h; simp [List.findIdx?] at h
  | cons a xs ih =>
    intro i h
    rw [List.findIdx?_cons] at h
    by_cases hp : p a
    · simp [hp] at h
      simp [List.length_cons]
      omega
    · simp [hp] at h
      obtain ⟨j, hj, rfl⟩ := h
      have := ih j hj
      simp
      omega

/-- One `appendSegment` call preserves the capacity bound. -/
theorem appendSegment_length_le (buf : List Segment) (s : Segment)
    (h : buf.length ≤ MAX_SEGMENTS) :
    (appendSegment buf s).length ≤ MAX_SEGMENTS := by
  unfold appendSegment dropOldest
  split_ifs with hfull
  · simp only [List.length_append, List.length_take, List.length_drop,
      List.length_cons, List.length_nil, MAX_SEGMENTS] at *
    omega
  · simp only [List.length_append, List.length_cons, List.length_nil, MAX_SEGMENTS] at *
    omega

/-- The capacity invariant for every append sequence from a fresh buffer. -/
theorem appendAll_length_le (ss : List Segment) :
    (appendAll ss).length ≤ MAX_SEGMENTS := by
  unfold appendAll
  have h : ∀ (l : List Segment) (buf : List Segment), buf.length ≤ MAX_SEGMENTS →
      (List.foldl appendSegment buf l).length ≤ MAX_SEGMENTS := by
    intro l
    induction l with
    | nil => intro buf hb; simpa using hb
    | cons a l ih => intro buf hb; exact ih _ (appendSegment_length_le buf a hb)
  exact h ss [] (by simp [MAX_SEGMENTS])

/-- Appending to a full buffer keeps exactly the newest half and then the
new segment. -/
theorem appendSegment_evicts (buf : List Segment) (s : Segment)
    (h : buf.length = MAX_SEGMENTS) :
    appendSegment buf s = buf.drop (MAX_SEGMENTS - MAX_SEGMENTS / 2) ++ [s] ∧
    (appendSegment buf s).length = MAX_SEGMENTS / 2 + 1 := by
  have hdrop : (buf.drop (MAX_SEGMENTS - MAX_SEGMENTS / 2)).length = MAX_SEGMENTS / 2 := by
    simp only [List.length_drop, h, MAX_SEGMENTS]
  have htake : dropOldest buf = buf.drop (MAX_SEGMENTS - MAX_SEGMENTS / 2) := by
    unfold dropOldest
    exact List.take_of_length_le (le_of_eq hdrop)
  have hmain : appendSegment buf s = buf.drop (MAX_SEGMENTS - MAX_SEGMENTS / 2) ++ [s] := by
    unfold appendSegment
    rw [if_pos (le_of_eq h.symm), htake]
  refine ⟨hmain, ?_⟩
  rw [hmain]
  simp [hdrop]

/-! ## Claim theorems -/

/-- Claim C1: for every sequence of `appendSegment` calls from a fresh
`SpiralGeometry` the stored count never exceeds `MAX_SEGMENTS`, and an
append that finds the buffer full keeps exactly the most recently appended
`⌊MAX_SEGMENTS / 2⌋` segments in insertion order, with the new segment
after them. -/
theorem spiralGeometry_capacity_and_eviction :
    (∀ ss : List Segment, (appendAll ss).length ≤ MAX_SEGMENTS) ∧
    (∀ (buf : List Segment) (s : Segment), buf.length = MAX_SEGMENTS →
      appendSegment buf s = buf.drop (MAX_SEGMENTS - MAX_SEGMENTS / 2) ++ [s] ∧
      (appendSegment buf s).length = MAX_SEGMENTS / 2 + 1) :=
  ⟨appendAll_length_le, appendSegment_evicts⟩

/-- Witness for C1: the eviction equation at a concrete full buffer. -/
theorem spiralGeometry_capacity_and_eviction_witness :
    fullBuffer.length = MAX_SEGMENTS ∧
    (appendSegment fullBuffer seg0
        = fullBuffer.drop (MAX_SEGMENTS - MAX_SEGMENTS / 2) ++ [seg0] ∧
      (appendSegment fullBuffer seg0).length = MAX_SEGMENTS / 2 + 1) :=
  ⟨by simp [fullBuffer],
   spiralGeometry_capacity_and_eviction.2 fullBuffer seg0 (by simp [fullBuffer])⟩

/-- Counterexample to C2 as stated: a `resize(0, 50)` call on a live
`SpiralRenderer` state is not a no-op — the guard in `resize` only skips
when the dimensions are unchanged. -/
theorem spiralRenderer_resize_zero_width_changes_state :
    spiralResize dims0 1 0 50 ≠ dims0 := by
  intro h
  have hw := congrArg SpiralRendererDims.width h
  norm_num [spiralResize, dims0] at hw

/-- Claim C2 (amended): the zero/negative guard lives at the call site —
the resize handler invokes `renderer.resize` only when both dimensions are
positive, so with a zero or negative dimension the handler leaves the
renderer state unchanged. -/
theorem handleResize_nonpositive_noop (s : SpiralRendererDims) (dpr w h : ℚ)
    (hwh : w ≤ 0 ∨ h ≤ 0) :
    handleResize s dpr w h = s := by
  unfold handleResize
  rw [if_neg]
  rintro ⟨hw, hh⟩
  rcases hwh with h0 | h0 <;> linarith

/-- Witness for the amended C2: width 0 is skipped. -/
theorem handleResize_nonpositive_noop_witness :
    ((0 : ℚ) ≤ 0 ∨ (50 : ℚ) ≤ 0) ∧ handleResize dims0 1 0 50 = dims0 :=
  ⟨Or.inl le_rfl, handleResize_nonpositive_noop dims0 1 0 50 (Or.inl le_rfl)⟩

/-- The drone interval is nonnegative for densities in `[0, 1]`. -/
theorem droneInterval_nonneg (d : ℚ) (h0 : 0 ≤ d) (h1 : d ≤ 1) :
    0 ≤ droneInterval d := by
  unfold droneInterval; nlinarith [h0, h1]

/-- The melody interval is nonnegative for densities in `[0, 1]`. -/
theorem melodyInterval_nonneg (d : ℚ) (h0 : 0 ≤ d) (h1 : d ≤ 1) :
    0 ≤ melodyInterval d := by
  unfold melodyInterval; nlinarith [h0, h1]

/-- A clock advance of the form `max now next + iv` with `0 ≤ iv` never
moves the clock backwards. -/
theorem advance_mono (next now iv : ℚ) (hiv : 0 ≤ iv) :
    next ≤ max now next + iv := by
  have := le_max_right now next
  linarith

/-- `droneTick` only touches the drone clock, monotonically. -/
theorem droneTick_clocks (t : LayerTimes) (inp : SchedTick)
    (h0 : 0 ≤ inp.musicDensity) (h1 : inp.musicDensity ≤ 1) :
    t.drone ≤ (droneTick t inp).1.drone ∧
    (droneTick t inp).1.melody = t.melody ∧
    (droneTick t inp).1.sparkle = t.sparkle := by
  unfold droneTick scheduleDrone
  split_ifs
  · exact ⟨advance_mono _ _ _ (droneInterval_nonneg _ h0 h1), rfl, rfl⟩
  · exact ⟨le_rfl, rfl, rfl⟩

/-- `melodyTick` only touches the melody clock, monotonically. -/
theorem melodyTick_clocks (t : LayerTimes) (inp : SchedTick)
    (h0 : 0 ≤ inp.musicDensity) (h1 : inp.musicDensity ≤ 1) :
    t.melody ≤ (melodyTick t inp).1.melody ∧
    (melodyTick t inp).1.drone = t.drone ∧
    (melodyTick t inp).1.sparkle = t.sparkle := by
  unfold melodyTick scheduleMelody
  split_ifs
  · exact ⟨advance_mono _ _ _ (melodyInterval_nonneg _ h0 h1), rfl, rfl⟩
  · exact ⟨le_rfl, rfl, rfl⟩

/-- `sparkleTick` only touches the sparkle clock, monotonically. -/
theorem sparkleTick_clocks (t : LayerTimes) (inp : SchedTick) :
    t.sparkle ≤ (sparkleTick t inp).1.sparkle ∧
    (sparkleTick t inp).1.drone = t.drone ∧
    (sparkleTick t inp).1.melody = t.melody := by
  unfold sparkleTick scheduleSparkle
  have hiv : (0 : ℚ) ≤ max (1 / 10) inp.sparkleDraw :=
    le_trans (by norm_num) (le_max_left _ _)
  split_ifs
  · exact ⟨advance_mono _ _ _ hiv, rfl, rfl⟩
  · exact ⟨le_rfl, rfl, rfl⟩

/-- A fired drone flag means the drone clock was inside the window. -/
theorem droneTick_fired (t : LayerTimes) (inp : SchedTick)
    (h : (droneTick t inp).2 = true) :
    t.drone < inp.nowGuard + LOOKAHEAD := by
  unfold droneTick at h
  split_ifs at h with hc
  exact of_decide_eq_true (Bool.and_elim_right hc)

/-- A fired melody flag means the melody clock was inside the window. -/
theorem melodyTick_fired (t : LayerTimes) (inp : SchedTick)
    (h : (melodyTick t inp).2 = true) :
    t.melody < inp.nowGuard + LOOKAHEAD := by
  unfold melodyTick at h
  split_ifs at h with hc
  exact of_decide_eq_true (Bool.and_elim_right hc)

/-- A fired sparkle flag means the sparkle clock was inside the window. -/
theorem sparkleTick_fired (t : LayerTimes) (inp : SchedTick)
    (h : (sparkleTick t inp).2 = true) :
    t.sparkle < inp.nowGuard + LOOKAHEAD := by
  unfold sparkleTick at h
  split_ifs at h with hc
  exact of_decide_eq_true (Bool.and_elim_right hc)

/-- Claim C3: across a scheduler tick no layer clock `nextEventTime` ever
decreases (for a density control in `[0, 1]`), and a layer fires on a tick
only if its `nextEventTime` is strictly below the audio-clock reading of
that tick plus the `0.025` s lookahead window. -/
theorem scheduler_monotone_and_lookahead (t : LayerTimes) (inp : SchedTick)
    (hd0 : 0 ≤ inp.musicDensity) (hd1 : inp.musicDensity ≤ 1) :
    (t.drone ≤ (schedulerTick t inp).1.drone ∧
     t.melody ≤ (schedulerTick t inp).1.melody ∧
     t.sparkle ≤ (schedulerTick t inp).1.sparkle) ∧
    ((schedulerTick t inp).2.1 = true → t.drone < inp.nowGuard + LOOKAHEAD) ∧
    ((schedulerTick t inp).2.2.1 = true → t.melody < inp.nowGuard + LOOKAHEAD) ∧
    ((schedulerTick t inp).2.2.2 = true → t.sparkle < inp.nowGuard + LOOKAHEAD) := by
  unfold schedulerTick
  split_ifs with hs
  · exact ⟨⟨le_rfl, le_rfl, le_rfl⟩, by simp, by simp, by simp⟩
  · obtain ⟨hta, htb, htc⟩ := droneTick_clocks t inp hd0 hd1
    obtain ⟨hua, hub, huc⟩ := melodyTick_clocks (droneTick t inp).1 inp hd0 hd1
    obtain ⟨hva, hvb, hvc⟩ := sparkleTick_clocks (melodyTick (droneTick t inp).1 inp).1 inp
    refine ⟨⟨?_, ?_, ?_⟩, ?_, ?_, ?_⟩
    · calc t.drone ≤ (droneTick t inp).1.drone := hta
        _ = (melodyTick (droneTick t inp).1 inp).1.drone := hub.symm
        _ = _ := hvb.symm
    · calc t.melody = (droneTick t inp).1.melody := htb.symm
        _ ≤ (melodyTick (droneTick t inp).1 inp).1.melody := hua
        _ = _ := hvc.symm
    · calc t.sparkle = (droneTick t inp).1.sparkle := htc.symm
        _ = (melodyTick (droneTick t inp).1 inp).1.sparkle := huc.symm
        _ ≤ _ := hva
    · exact fun h => droneTick_fired t inp h
    · intro h
      have := melodyTick_fired (droneTick t inp).1 inp h
      rwa [htb] at this
    · intro h
      have := sparkleTick_fired (melodyTick (droneTick t inp).1 inp).1 inp h
      rwa [huc, htc] at this

/-- Witness for C3 at a concrete tick input. -/
theorem scheduler_monotone_and_lookahead_witness :
    (0 ≤ tick0.musicDensity ∧ tick0.musicDensity ≤ 1) ∧
    ((⟨0, 0, 0⟩ : LayerTimes).drone ≤ (schedulerTick ⟨0, 0, 0⟩ tick0).1.drone ∧
     (⟨0, 0, 0⟩ : LayerTimes).melody ≤ (schedulerTick ⟨0, 0, 0⟩ tick0).1.melody ∧
     (⟨0, 0, 0⟩ : LayerTimes).sparkle ≤ (schedulerTick ⟨0, 0, 0⟩ tick0).1.sparkle) ∧
    ((schedulerTick ⟨0, 0, 0⟩ tick0).2.1 = true →
      (⟨0, 0, 0⟩ : LayerTimes).drone < tick0.nowGuard + LOOKAHEAD) :=
  ⟨⟨by norm_num [tick0], by norm_num [tick0]⟩,
   (scheduler_monotone_and_lookahead ⟨0, 0, 0⟩ tick0
      (by norm_num [tick0]) (by norm_num [tick0])).1,
   (scheduler_monotone_and_lookahead ⟨0, 0, 0⟩ tick0
      (by norm_num [tick0]) (by norm_num [tick0])).2.1⟩

/-- Claim C4: a claim never fails — it always returns a valid voice index
and preserves the pool size, so the busy count can never exceed the pool
size (6 for the pool built by `init`); the voice returned is the first
free one when one exists, and when all are busy the stolen voice's gain
envelope is cancelled and forced to 0 at claim time. -/
theorem voicePool_claim_total_and_steal_silences
    (pool : List PoolVoice) (r : ℕ) (hne : pool ≠ []) :
    initVoicePool.length = 6 ∧
    (claimVoice pool r).2.length = pool.length ∧
    (claimVoice pool r).1 < pool.length ∧
    (claimVoice pool r).2.countP (fun v => v.busy) ≤ pool.length ∧
    (∀ i, pool.findIdx? (fun v => !v.busy) = some i →
      (claimVoice pool r).1 = i ∧
      (claimVoice pool r).2 = pool.set i { pool.getD i default with busy := true }) ∧
    (pool.findIdx? (fun v => !v.busy) = none →
      (claimVoice pool r).2.getD (claimVoice pool r).1 default
        = { busy := true, gainValue := 0, pendingRamps := false }) := by
  have hlen : 0 < pool.length := List.length_pos.mpr hne
  refine ⟨by simp [initVoicePool], ?_, ?_, ?_, ?_, ?_⟩
  · unfold claimVoice
    cases h : pool.findIdx? (fun v => !v.busy) <;> simp
  · unfold claimVoice
    cases h : pool.findIdx? (fun v => !v.busy) with
    | none => simpa using Nat.mod_lt r hlen
    | some i => simpa using findIdx?_lt_length _ pool i h
  · calc (claimVoice pool r).2.countP (fun v => v.busy)
        ≤ (claimVoice pool r).2.length := List.countP_le_length _
      _ = pool.length := by
          unfold claimVoice
          cases h : pool.findIdx? (fun v => !v.busy) <;> simp
  · intro i hi
    unfold claimVoice
    rw [hi]
    exact ⟨rfl, rfl⟩
  · intro hnone
    unfold claimVoice
    rw [hnone]
    simp only []
    rw [List.getD_eq_getElem _ _ (by simpa using Nat.mod_lt r hlen)]
    exact List.getElem_set_self _

/-- Witness for C4: stealing from a fully busy pool of 6 live voices. -/
theorem voicePool_claim_total_and_steal_silences_witness :
    busyPool ≠ [] ∧
    (initVoicePool.length = 6 ∧
     (claimVoice busyPool 7).2.length = busyPool.length ∧
     (claimVoice busyPool 7).1 < busyPool.length ∧
     (claimVoice busyPool 7).2.countP (fun v => v.busy) ≤ busyPool.length ∧
     (∀ i, busyPool.findIdx? (fun v => !v.busy) = some i →
       (claimVoice busyPool 7).1 = i ∧
       (claimVoice busyPool 7).2
          = busyPool.set i { busyPool.getD i default with busy := true }) ∧
     (busyPool.findIdx? (fun v => !v.busy) = none →
       (claimVoice busyPool 7).2.getD (claimVoice busyPool 7).1 default
          = { busy := true, gainValue := 0, pendingRamps := false })) :=
  ⟨by simp [busyPool],
   voicePool_claim_total_and_steal_silences busyPool 7 (by simp [busyPool])⟩

/-- Claim C8: `isBeat` returns `true` exactly when the history holds at
least 10 samples, at least 200 ms passed since the last declared beat, the
mean of all samples but the latest clears the `0.02` noise floor, and the
latest sample exceeds `1.5 ×` that mean. -/
theorem isBeat_iff (s : BeatState) (now : ℚ) :
    (isBeat s now).1 = true ↔
      (10 ≤ s.energyHistory.length ∧
       BEAT_COOLDOWN_MS ≤ now - s.lastBeatTime ∧
       1 / 50 < meanOfOthers s.energyHistory ∧
       meanOfOthers s.energyHistory * BEAT_THRESHOLD
         < latestSample s.energyHistory) := by
  unfold isBeat
  split_ifs with h1 h2 h3
  · exact iff_of_false (by simp) (fun hc => absurd hc.1 (by omega))
  · exact iff_of_false (by simp) (fun hc => absurd hc.2.1 (not_le.mpr h2))
  · exact iff_of_true rfl ⟨by omega, not_lt.mp h2, h3.1, h3.2⟩
  · exact iff_of_false (by simp) (fun hc => h3 ⟨hc.2.2.1, hc.2.2.2⟩)

/-- Claim C6: `_applyMapping` computes exactly the three documented
formulas on a numeric base, and in particular the two concrete cases
(`set` with `min=1, max=8, energy=0.5` gives `4.5`; `multiply` with
`base=10, intensity=0.5, energy=1` gives `15`). -/
theorem applyMapping_formulas :
    (∀ (intensity energy base : ℚ) (lo hi : Option ℚ),
      applyMapping ⟨MapMode.add, intensity, lo, hi⟩ energy base
          = base + energy * intensity * |base| * (1 / 2) ∧
      applyMapping ⟨MapMode.multiply, intensity, lo, hi⟩ energy base
          = base * (1 + energy * intensity) ∧
      applyMapping ⟨MapMode.set, intensity, lo, hi⟩ energy base
          = lo.getD 0 + energy * (hi.getD (|base| * 2) - lo.getD 0)) ∧
    (∀ (intensity base : ℚ),
      applyMapping ⟨MapMode.set, intensity, some 1, some 8⟩ (1 / 2) base = 9 / 2) ∧
    applyMapping ⟨MapMode.multiply, 1 / 2, none, none⟩ 1 10 = 15 := by
  refine ⟨fun intensity energy base lo hi => ⟨rfl, rfl, rfl⟩,
    fun intensity base => ?_, ?_⟩ <;>
    simp [applyMapping] <;> norm_num

/-- Claim C7: `clear()` is idempotent — a second consecutive call changes
nothing — and after a clear the segment buffer is empty, the accumulation
target holds only the background colour, both trail buffers are zeroed and
the trail write index is 0. -/
theorem renderer_clear_idempotent (s : SpiralRendererState) :
    clearRenderer (clearRenderer s) = clearRenderer s ∧
    (clearRenderer s).buffer = [] ∧
    (clearRenderer s).accum = TargetContent.cleared ∧
    (clearRenderer s).post.trailA = TargetContent.cleared ∧
    (clearRenderer s).post.trailB = TargetContent.cleared ∧
    (clearRenderer s).post.trailWriteIdx = 0 := by
  simp [clearRenderer, clearTrail]

/-- Claim C10: a `PostProcessor.render` call with `motionTrail = 0` leaves
the motion-trail state untouched — the write index is not flipped and
neither trail buffer is written — and the texture fed to the effect passes
is the accumulation texture itself. -/
theorem postProcessor_render_no_trail_when_zero
    (p : PostProcessorState) (accumTex : TargetContent) (motionTrail : ℚ)
    (h : motionTrail = 0) :
    (ppRender p accumTex motionTrail).1.trailWriteIdx = p.trailWriteIdx ∧
    (ppRender p accumTex motionTrail).1.trailA = p.trailA ∧
    (ppRender p accumTex motionTrail).1.trailB = p.trailB ∧
    (ppRender p accumTex motionTrail).2 = accumTex := by
  subst h
  simp [ppRender]

/-- Witness for C10 at a concrete post-processor state. -/
theorem postProcessor_render_no_trail_when_zero_witness :
    (0 : ℚ) = 0 ∧
    ((ppRender post0 (TargetContent.image 7) 0).1.trailWriteIdx
        = post0.trailWriteIdx ∧
     (ppRender post0 (TargetContent.image 7) 0).1.trailA = post0.trailA ∧
     (ppRender post0 (TargetContent.image 7) 0).1.trailB = post0.trailB ∧
     (ppRender post0 (TargetContent.image 7) 0).2 = TargetContent.image 7) :=
  ⟨rfl, postProcessor_render_no_trail_when_zero post0 (TargetContent.image 7) 0 rfl⟩

/-- Claim C9: whenever no candidate note lies within 5 semitones of the
previous melody note, the stepwise bucket is empty, and `_nextMelodyNote`
returns a member of the leap bucket as soon as that bucket is non-empty
(in particular it is a well-defined note, for any random draws). -/
theorem nextMelodyNote_leap_fallback (root : ℤ) (scale : List ℤ) (last : ℤ)
    (rPool : ℚ) (rIdx : ℕ)
    (hfar : ∀ n ∈ buildCandidates root scale, 5 < |n - last|)
    (hleap : leapBucket root scale last ≠ []) :
    nextMelodyNote root scale last rPool rIdx ∈ leapBucket root scale last := by
  have hstep : stepBucket root scale last = [] := by
    rw [stepBucket, List.filter_eq_nil_iff]
    intro n hn
    simp only [decide_eq_true_eq, not_and]
    intro hle
    exact absurd hle (not_le.mpr (hfar n hn))
  have hcand : buildCandidates root scale ≠ [] := by
    intro hc
    apply hleap
    rw [leapBucket, hc]
    rfl
  unfold nextMelodyNote
  rw [if_neg hcand]
  simp only [hstep, hleap, ne_eq, not_true_eq_false, and_false, if_false, if_true,
    not_false_eq_true, ite_not]
  have hlen : 0 < (leapBucket root scale last).length :=
    List.length_pos.mpr hleap
  rw [List.getD_eq_getElem _ _ (Nat.mod_lt rIdx hlen)]
  exact List.getElem_mem _

/-- Witness for C9: previous note 54 with a one-degree scale on root 48 —
candidates `[48, 60, 72]` are all ≥ 6 semitones away. -/
theorem nextMelodyNote_leap_fallback_witness :
    (∀ n ∈ buildCandidates 48 [0], 5 < |n - 54|) ∧
    leapBucket 48 [0] 54 ≠ [] ∧
    nextMelodyNote 48 [0] 54 (1 / 2) 1 ∈ leapBucket 48 [0] 54 :=
  ⟨by decide, by decide,
   nextMelodyNote_leap_fallback 48 [0] 54 (1 / 2) 1 (by decide) (by decide)⟩

/-- The snapping fold started from a seeded accumulator returns a table
entry (or the seed) of minimal relative distance, paired with exactly that
distance. -/
theorem snapFold_min (c : ℚ) :
    ∀ (l : List ℚ) (b : ℚ),
      ∃ b', List.foldl (snapFold c) (some (b, relDist c b)) l
              = some (b', relDist c b') ∧
        (b' = b ∨ b' ∈ l) ∧ relDist c b' ≤ relDist c b ∧
        ∀ r ∈ l, relDist c b' ≤ relDist c r := by
  intro l
  induction l with
  | nil => exact fun b => ⟨b, rfl, Or.inl rfl, le_rfl, by simp⟩
  | cons a l ih =>
    intro b
    rw [List.foldl_cons]
    by_cases hlt : relDist c a < relDist c b
    · have hstep : snapFold c (some (b, relDist c b)) a = some (a, relDist c a) := by
        simp [snapFold, hlt]
      rw [hstep]
      obtain ⟨b', h1, h2, h3, h4⟩ := ih a
      refine ⟨b', h1, ?_, le_trans h3 (le_of_lt hlt), ?_⟩
      · rcases h2 with h | h
        · exact Or.inr (h ▸ List.mem_cons_self a l)
        · exact Or.inr (List.mem_cons_of_mem a h)
      · intro r hr
        rcases List.mem_cons.mp hr with h | h
        · exact h ▸ h3
        · exact h4 r h
    · have hstep : snapFold c (some (b, relDist c b)) a = some (b, relDist c b) := by
        simp [snapFold, hlt]
      rw [hstep]
      obtain ⟨b', h1, h2, h3, h4⟩ := ih b
      refine ⟨b', h1, ?_, h3, ?_⟩
      · rcases h2 with h | h
        · exact Or.inl h
        · exact Or.inr (List.mem_cons_of_mem a h)
      · intro r hr
        rcases List.mem_cons.mp hr with h | h
        · exact h ▸ le_trans h3 (not_lt.mp hlt)
        · exact h4 r h


/-- First loop iteration from the empty accumulator. -/
theorem snapFold_none (c r : ℚ) : snapFold c none r = some (r, relDist c r) := rfl

/-- A loop iteration that improves on the best distance so far. -/
theorem snapFold_lt (c b bd r : ℚ) (h : relDist c r < bd) :
    snapFold c (some (b, bd)) r = some (r, relDist c r) := by
  simp [snapFold, h]

/-- A loop iteration that does not improve on the best distance so far. -/
theorem snapFold_ge (c b bd r : ℚ) (h : ¬relDist c r < bd) :
    snapFold c (some (b, bd)) r = some (b, bd) := by
  simp [snapFold, h]

/-- Unfolding of the return line on a present best entry. -/
theorem snapFinish_some (clamped b bd : ℚ) :
    snapFinish clamped (some (b, bd)) = if bd < 3 / 20 then b else clamped := rfl

/-- Evaluation of `relDist` when the clamped value is right of the entry. -/
theorem relDist_pos_eval (c r v : ℚ) (h : 0 ≤ c - r) (hv : (c - r) / r = v) :
    relDist c r = v := by
  rw [relDist, abs_of_nonneg h, hv]

/-- Evaluation of `relDist` when the clamped value is left of the entry. -/
theorem relDist_neg_eval (c r v : ℚ) (h : c - r ≤ 0) (hv : -(c - r) / r = v) :
    relDist c r = v := by
  rw [relDist, abs_of_nonpos h, hv]

/-- The snapping loop on input `1.48` ends at entry `1.5`, distance `1/75`. -/
theorem snapLoop_at_148 :
    SIMPLE_RATIOS.foldl (snapFold (37 / 25 : ℚ)) none = some (3 / 2, 1 / 75) := by
  have d1 : relDist (37 / 25) 1 = 12 / 25 :=
    relDist_pos_eval _ _ _ (by norm_num) (by norm_num)
  have d2 : relDist (37 / 25) (5 / 4) = 23 / 125 :=
    relDist_pos_eval _ _ _ (by norm_num) (by norm_num)
  have d3 : relDist (37 / 25) (1333 / 1000) = 147 / 1333 :=
    relDist_pos_eval _ _ _ (by norm_num) (by norm_num)
  have d4 : relDist (37 / 25) (3 / 2) = 1 / 75 :=
    relDist_neg_eval _ _ _ (by norm_num) (by norm_num)
  have d5 : relDist (37 / 25) 2 = 13 / 50 :=
    relDist_neg_eval _ _ _ (by norm_num) (by norm_num)
  have d6 : relDist (37 / 25) (5 / 2) = 51 / 125 :=
    relDist_neg_eval _ _ _ (by norm_num) (by norm_num)
  have d7 : relDist (37 / 25) 3 = 38 / 75 :=
    relDist_neg_eval _ _ _ (by norm_num) (by norm_num)
  have d8 : relDist (37 / 25) 4 = 63 / 100 :=
    relDist_neg_eval _ _ _ (by norm_num) (by norm_num)
  have d9 : relDist (37 / 25) 8 = 163 / 200 :=
    relDist_neg_eval _ _ _ (by norm_num) (by norm_num)
  rw [SIMPLE_RATIOS]
  rw [List.foldl_cons, snapFold_none, d1]
  rw [List.foldl_cons, snapFold_lt _ _ _ _ (by rw [d2]; norm_num), d2]
  rw [List.foldl_cons, snapFold_lt _ _ _ _ (by rw [d3]; norm_num), d3]
  rw [List.foldl_cons, snapFold_lt _ _ _ _ (by rw [d4]; norm_num), d4]
  rw [List.foldl_cons, snapFold_ge _ _ _ _ (by rw [d5]; norm_num)]
  rw [List.foldl_cons, snapFold_ge _ _ _ _ (by rw [d6]; norm_num)]
  rw [List.foldl_cons, snapFold_ge _ _ _ _ (by rw [d7]; norm_num)]
  rw [List.foldl_cons, snapFold_ge _ _ _ _ (by rw [d8]; norm_num)]
  rw [List.foldl_cons, snapFold_ge _ _ _ _ (by rw [d9]; norm_num)]
  rw [List.foldl_nil]

/-- The snapping loop on input `1.2` ends at entry `1.25`, distance `1/25`. -/
theorem snapLoop_at_12 :
    SIMPLE_RATIOS.foldl (snapFold (6 / 5 : ℚ)) none = some (5 / 4, 1 / 25) := by
  have d1 : relDist (6 / 5) 1 = 1 / 5 :=
    relDist_pos_eval _ _ _ (by norm_num) (by norm_num)
  have d2 : relDist (6 / 5) (5 / 4) = 1 / 25 :=
    relDist_neg_eval _ _ _ (by norm_num) (by norm_num)
  have d3 : relDist (6 / 5) (1333 / 1000) = 133 / 1333 :=
    relDist_neg_eval _ _ _ (by norm_num) (by norm_num)
  have d4 : relDist (6 / 5) (3 / 2) = 1 / 5 :=
    relDist_neg_eval _ _ _ (by norm_num) (by norm_num)
  have d5 : relDist (6 / 5) 2 = 2 / 5 :=
    relDist_neg_eval _ _ _ (by norm_num) (by norm_num)
  have d6 : relDist (6 / 5) (5 / 2) = 13 / 25 :=
    relDist_neg_eval _ _ _ (by norm_num) (by norm_num)
  have d7 : relDist (6 / 5) 3 = 3 / 5 :=
    relDist_neg_eval _ _ _ (by norm_num) (by norm_num)
  have d8 : relDist (6 / 5) 4 = 7 / 10 :=
    relDist_neg_eval _ _ _ (by norm_num) (by norm_num)
  have d9 : relDist (6 / 5) 8 = 17 / 20 :=
    relDist_neg_eval _ _ _ (by norm_num) (by norm_num)
  rw [SIMPLE_RATIOS]
  rw [List.foldl_cons, snapFold_none, d1]
  rw [List.foldl_cons, snapFold_lt _ _ _ _ (by rw [d2]; norm_num), d2]
  rw [List.foldl_cons, snapFold_ge _ _ _ _ (by rw [d3]; norm_num)]
  rw [List.foldl_cons, snapFold_ge _ _ _ _ (by rw [d4]; norm_num)]
  rw [List.foldl_cons, snapFold_ge _ _ _ _ (by rw [d5]; norm_num)]
  rw [List.foldl_cons, snapFold_ge _ _ _ _ (by rw [d6]; norm_num)]
  rw [List.foldl_cons, snapFold_ge _ _ _ _ (by rw [d7]; norm_num)]
  rw [List.foldl_cons, snapFold_ge _ _ _ _ (by rw [d8]; norm_num)]
  rw [List.foldl_cons, snapFold_ge _ _ _ _ (by rw [d9]; norm_num)]
  rw [List.foldl_nil]

/-- The snapping loop on input `6` ends at entry `8`, distance `1/4`. -/
theorem snapLoop_at_6 :
    SIMPLE_RATIOS.foldl (snapFold (6 : ℚ)) none = some (8, 1 / 4) := by
  have d1 : relDist 6 1 = 5 :=
    relDist_pos_eval _ _ _ (by norm_num) (by norm_num)
  have d2 : relDist 6 (5 / 4) = 19 / 5 :=
    relDist_pos_eval _ _ _ (by norm_num) (by norm_num)
  have d3 : relDist 6 (1333 / 1000) = 4667 / 1333 :=
    relDist_pos_eval _ _ _ (by norm_num) (by norm_num)
  have d4 : relDist 6 (3 / 2) = 3 :=
    relDist_pos_eval _ _ _ (by norm_num) (by norm_num)
  have d5 : relDist 6 2 = 2 :=
    relDist_pos_eval _ _ _ (by norm_num) (by norm_num)
  have d6 : relDist 6 (5 / 2) = 7 / 5 :=
    relDist_pos_eval _ _ _ (by norm_num) (by norm_num)
  have d7 : relDist 6 3 = 1 :=
    relDist_pos_eval _ _ _ (by norm_num) (by norm_num)
  have d8 : relDist 6 4 = 1 / 2 :=
    relDist_pos_eval _ _ _ (by norm_num) (by norm_num)
  have d9 : relDist 6 8 = 1 / 4 :=
    relDist_neg_eval _ _ _ (by norm_num) (by norm_num)
  rw [SIMPLE_RATIOS]
  rw [List.foldl_cons, snapFold_none, d1]
  rw [List.foldl_cons, snapFold_lt _ _ _ _ (by rw [d2]; norm_num), d2]
  rw [List.foldl_cons, snapFold_lt _ _ _ _ (by rw [d3]; norm_num), d3]
  rw [List.foldl_cons, snapFold_lt _ _ _ _ (by rw [d4]; norm_num), d4]
  rw [List.foldl_cons, snapFold_lt _ _ _ _ (by rw [d5]; norm_num), d5]
  rw [List.foldl_cons, snapFold_lt _ _ _ _ (by rw [d6]; norm_num), d6]
  rw [List.foldl_cons, snapFold_lt _ _ _ _ (by rw [d7]; norm_num), d7]
  rw [List.foldl_cons, snapFold_lt _ _ _ _ (by rw [d8]; norm_num), d8]
  rw [List.foldl_cons, snapFold_lt _ _ _ _ (by rw [d9]; norm_num), d9]
  rw [List.foldl_nil]

/-- Claim C5: `snapToSimpleRatio` clamps to `[1, 8]` and returns the table
entry with minimal relative distance whenever that distance is below
`0.15`, the clamped input otherwise; in particular `snap(1.48) = 1.5`,
`snap(1.2) = 1.25` and `snap(6.0) = 6.0`. -/
theorem snapToSimpleRatio_characterization :
    (∀ q : ℚ, ∃ b ∈ SIMPLE_RATIOS,
      (∀ r ∈ SIMPLE_RATIOS,
        relDist (max 1 (min 8 q)) b ≤ relDist (max 1 (min 8 q)) r) ∧
      snapToSimpleRatio q =
        if relDist (max 1 (min 8 q)) b < 3 / 20 then b else max 1 (min 8 q)) ∧
    snapToSimpleRatio (37 / 25) = 3 / 2 ∧
    snapToSimpleRatio (6 / 5) = 5 / 4 ∧
    snapToSimpleRatio 6 = 6 := by
  refine ⟨?_, ?_, ?_, ?_⟩
  · intro q
    obtain ⟨b', h1, h2, h3, h4⟩ :=
      snapFold_min (max 1 (min 8 q)) [5 / 4, 1333 / 1000, 3 / 2, 2, 5 / 2, 3, 4, 8] 1
    refine ⟨b', ?_, ?_, ?_⟩
    · rcases h2 with h | h
      · rw [SIMPLE_RATIOS, h]; exact List.mem_cons_self _ _
      · rw [SIMPLE_RATIOS]; exact List.mem_cons_of_mem _ h
    · intro r hr
      rw [SIMPLE_RATIOS] at hr
      rcases List.mem_cons.mp hr with h | h
      · exact h ▸ h3
      · exact h4 r h
    · unfold snapToSimpleRatio
      rw [SIMPLE_RATIOS, List.foldl_cons, snapFold_none, h1, snapFinish_some]
  · have hc : max 1 (min 8 ((37 : ℚ) / 25)) = 37 / 25 := by
      rw [min_eq_right (by norm_num), max_eq_right (by norm_num)]
    unfold snapToSimpleRatio
    rw [hc, snapLoop_at_148, snapFinish_some, if_pos (by norm_num)]
  · have hc : max 1 (min 8 ((6 : ℚ) / 5)) = 6 / 5 := by
      rw [min_eq_right (by norm_num), max_eq_right (by norm_num)]
    unfold snapToSimpleRatio
    rw [hc, snapLoop_at_12, snapFinish_some, if_pos (by norm_num)]
  · have hc : max 1 (min 8 (6 : ℚ)) = 6 := by
      rw [min_eq_right (by norm_num), max_eq_right (by norm_num)]
    unfold snapToSimpleRatio
    rw [hc, snapLoop_at_6, snapFinish_some, if_neg (by norm_num)]
